import Mathlib

/-!
# Transaction-API: a shallow embedding of `src/app/storage.py` and `src/app/main.py`

This file models the `Database` class of the Transaction-API repository:
the chunked CSV ingestion pipeline (`upload_csv`), the per-user aggregate
query (`get_summary`), and the reset utility (`clear`), together with the
HTTP status mapping of `main.py`'s exception handlers.

Modelling choices:

* The SQLite `transactions` table is a `List Row`; `transaction_id TEXT
  PRIMARY KEY` is modelled by the insert failing whenever the id already
  occurs in the table the connection sees.
* `pandas.read_csv` is modelled by `read_csv` over an abstract `CSVStream`:
  a zero-byte stream raises `EmptyDataError`, an unparsable stream raises
  `ParserError`, and a parsed stream carries its header and data rows, with
  null cells represented as `Option.none` (pandas turns empty cells into
  NaN).  The chunk iterator yields groups of `CHUNK_SIZE` rows and yields
  no chunk at all when the file has a header but no data rows.
* Float columns are modelled as exact rationals; Python's `round(x, 2)` is
  modelled as round-half-up on rationals (`round2`).  No claim below
  depends on tie-breaking behaviour of rounding.
* The possibility of an unexpected storage-backend exception (e.g. an
  `sqlite3.OperationalError`) is modelled by boolean flags: for ingestion,
  `cf` makes the initial row-count query — which runs before the
  `try`/`finally` — raise, and `bf` makes the first write statement inside
  the guarded chunk loop raise; for the summary query, its flag makes the
  aggregate query itself raise.
* `Except.error (SurfacedExc.valueError m)` is a Python `ValueError m`
  escaping the function; `SurfacedExc.otherExc m` is any other exception.
  The `connClosed` field records whether `connection.close()` ran before
  the call returned or the exception propagated.
-/

namespace TransactionAPI

/-- A fully populated transaction record as stored in the `transactions`
table (`storage.py` lines 28-33): `transaction_id TEXT PRIMARY KEY,
user_id INTEGER, product_id INTEGER, timestamp TEXT,
transaction_amount REAL`. -/
structure Row where
  transaction_id : String
  user_id : Int
  product_id : Int
  timestamp : String
  transaction_amount : ℚ
deriving Repr, DecidableEq

/-- A row as produced by `pd.read_csv` before validation: any cell may be
null (`none`), which is how pandas represents an empty cell. -/
structure RawRow where
  transaction_id : Option String
  user_id : Option Int
  product_id : Option Int
  timestamp : Option String
  transaction_amount : Option ℚ
deriving Repr, DecidableEq

/-- The uploaded byte stream, abstracted at the level `pd.read_csv` sees it:
zero bytes, unparsable bytes, or parsed tabular content consisting of a
header line and a list of data rows. -/
inductive CSVStream where
  | empty
  | malformed
  | content (header : List String) (rows : List RawRow)

/-- The expected column header, `storage.py` lines 71-72. -/
def expectedColumns : List String :=
  ["transaction_id", "user_id", "product_id", "timestamp", "transaction_amount"]

/-- Rows per chunk, `storage.py` line 14. -/
def CHUNK_SIZE : Nat := 10000

/-- Fuel-indexed chunk splitter (structurally recursive so that it reduces
in the kernel); `chunksOf` instantiates the fuel with the list length. -/
def chunksFuel (n : Nat) : Nat → List RawRow → List (List RawRow)
  | 0, _ => []
  | _, [] => []
  | fuel + 1, r :: rs => (r :: rs.take (n - 1)) :: chunksFuel n fuel (rs.drop (n - 1))

/-- Split a row list into chunks of `n` rows, as the `pd.read_csv`
chunk iterator does.  A list with no rows produces no chunks, matching
pandas yielding zero chunks for a header-only file. -/
def chunksOf (n : Nat) (l : List RawRow) : List (List RawRow) :=
  chunksFuel n l.length l

/-- Concatenation of a chunk list back into the row list it came from. -/
def concatChunks : List (List RawRow) → List RawRow
  | [] => []
  | c :: cs => c ++ concatChunks cs

/-- Outcome of `pd.read_csv` (`storage.py` lines 54-64): the empty-file
exception, the parser exception, or the header plus chunk iterator. -/
inductive ParseOutcome where
  | emptyData
  | parserError
  | ok (header : List String) (chunks : List (List RawRow))

/-- Model of `pd.read_csv(file.file, chunksize=CHUNK_SIZE, ...)`. -/
def read_csv : CSVStream → ParseOutcome
  | .empty => .emptyData
  | .malformed => .parserError
  | .content h rows => .ok h (chunksOf CHUNK_SIZE rows)

/-- The distinct exceptions that can be raised inside the `try` block of
`upload_csv` after parsing succeeded. -/
inductive UploadErr where
  | invalidColumns (got : List String)
  | nullValues
  | nonPositiveAmount
  | nonPositiveId
  | uniqueViolation
  | storageBackend
deriving Repr, DecidableEq

/-- Whether a row has a null/empty cell in any column
(`chunk.isnull().any().any()`, `storage.py` line 82). -/
def rowHasNull (r : RawRow) : Bool :=
  r.transaction_id.isNone || r.user_id.isNone || r.product_id.isNone ||
    r.timestamp.isNone || r.transaction_amount.isNone

/-- Whether the row's amount is non-positive
(`(chunk['transaction_amount'] <= 0).any()`, line 86; a NaN cell compares
false in pandas, hence `none ↦ false`). -/
def rowBadAmount (r : RawRow) : Bool :=
  match r.transaction_amount with
  | some a => decide (a ≤ 0)
  | none => false

/-- Whether the row's user or product id is non-positive (line 90). -/
def rowBadId (r : RawRow) : Bool :=
  (match r.user_id with | some u => decide (u ≤ 0) | none => false) ||
    (match r.product_id with | some p => decide (p ≤ 0) | none => false)

/-- A row that trips one of the three per-chunk integrity checks. -/
def rowViolates (r : RawRow) : Bool :=
  rowHasNull r || rowBadAmount r || rowBadId r

/-- A row passing all three per-chunk integrity checks. -/
def rawRowValid (r : RawRow) : Bool := !(rowViolates r)

/-- The three per-chunk validation checks of `storage.py` lines 82-91, in
source order: null cells, then non-positive amounts, then non-positive
ids. -/
def checkChunk (c : List RawRow) : Except UploadErr Unit :=
  if c.any rowHasNull then .error .nullValues
  else if c.any rowBadAmount then .error .nonPositiveAmount
  else if c.any rowBadId then .error .nonPositiveId
  else .ok ()

/-- Strip the `Option` wrappers off a raw row.  Only applied to chunks on
which the null check has already passed, so the defaults are never used on
the executed paths. -/
def rawToRow (r : RawRow) : Row :=
  { transaction_id := r.transaction_id.getD ""
    user_id := r.user_id.getD 0
    product_id := r.product_id.getD 0
    timestamp := r.timestamp.getD ""
    transaction_amount := r.transaction_amount.getD 0 }

/-- Sequential row insertion, as `chunk.to_sql(..., if_exists='append')`
performs it against the table this connection sees: each insert fails with
a UNIQUE-constraint error when the primary key `transaction_id` is already
present. -/
def insertRows : List Row → List Row → Except UploadErr (List Row)
  | working, [] => .ok working
  | working, r :: rest =>
    if working.any fun q => q.transaction_id == r.transaction_id then
      .error .uniqueViolation
    else insertRows (working ++ [r]) rest

/-- The chunk loop of `upload_csv` (`storage.py` lines 68-98): on the
first chunk compare the header against `expectedColumns`; then run the
three integrity checks; then append the chunk to the table.  `bf` models
an unexpected backend failure raised by the first write statement. -/
def processChunks (bf : Bool) (header : List String) :
    Bool → List Row → List (List RawRow) → Except UploadErr (List Row)
  | _, working, [] => .ok working
  | firstChunk, working, c :: cs =>
    if firstChunk && !(header == expectedColumns) then
      .error (.invalidColumns header)
    else
      match checkChunk c with
      | .error e => .error e
      | .ok _ =>
        if bf then .error .storageBackend
        else
          match insertRows working (c.map rawToRow) with
          | .error e => .error e
          | .ok working2 => processChunks bf header false working2 cs

/-- The message carried by each exception raised inside the `try` block
(`str(e)` as the generic handler on line 121 sees it). -/
def uploadErrMsg : UploadErr → String
  | .invalidColumns got =>
      "Invalid columns. Expected: " ++ toString expectedColumns ++
        ", Got: " ++ toString got
  | .nullValues => "CSV contains null/empty values"
  | .nonPositiveAmount => "Transaction amounts must be positive"
  | .nonPositiveId => "User ID and Product ID must be positive"
  | .uniqueViolation => "UNIQUE constraint failed: transactions.transaction_id"
  | .storageBackend => "database error"

/-- An exception escaping a `Database` method, as `main.py`'s handlers
classify it: a `ValueError` or anything else. -/
inductive SurfacedExc where
  | valueError (msg : String)
  | otherExc (msg : String)
deriving Repr, DecidableEq

/-- The `UploadResponse` payload (`models.py`); wall-clock timing is real
time and is not modelled. -/
structure UploadResponse where
  success : Bool
  message : String
  rows_processed : Int
deriving Repr, DecidableEq

/-- Everything observable about one `upload_csv` call: its return value or
escaped exception, the table contents after the connection was closed, and
whether `connection.close()` ran. -/
structure UploadOutcome where
  result : Except SurfacedExc UploadResponse
  table : List Row
  connClosed : Bool

/-- The region of `Database.upload_csv` guarded by `try`/`except`/`finally`
(`storage.py` lines 52-135), together with the return.  The empty and
parser exceptions are mapped by their dedicated handlers (lines 110-115);
every other exception, including the `ValueError`s raised by the
validation checks themselves and any backend exception raised inside the
`try` block, is caught by the generic handler (lines 117-121) which rolls
back and re-raises `ValueError("ERROR: " + str(e))`.  The `finally` block
closes the connection on every path through this region, and closing
without a commit discards the pending inserts, so every failing path
returns the table unchanged. -/
def upload_csv_body (bf : Bool) (file : CSVStream) (db : List Row) : UploadOutcome :=
  match read_csv file with
  | .emptyData =>
      { result := .error (.valueError "CSV file is empty"), table := db, connClosed := true }
  | .parserError =>
      { result := .error (.valueError "Invalid CSV format: parser error"),
        table := db, connClosed := true }
  | .ok header chunks =>
    match processChunks bf header true db chunks with
    | .error e =>
        { result := .error (.valueError ("ERROR: " ++ uploadErrMsg e)),
          table := db, connClosed := true }
    | .ok working =>
        { result := .ok { success := true
                          message := "Transactions uploaded successfully"
                          rows_processed := (working.length : Int) - (db.length : Int) }
          table := working, connClosed := true }

/-- Model of `Database.upload_csv` (`storage.py` lines 42-135).  The
connection is opened and the initial `SELECT COUNT(*)` runs at lines 45-50,
BEFORE the `try` at line 52: `cf` ("count fails") models a backend error
raised there.  Such an exception is not a `ValueError`, no handler catches
it, and the `finally` block is never entered, so it propagates with the
connection still open and nothing written.  When the pre-`try` region
succeeds, execution continues in `upload_csv_body`, whose `finally` closes
the connection on every path. -/
def upload_csv (cf bf : Bool) (file : CSVStream) (db : List Row) : UploadOutcome :=
  if cf then
    { result := .error (.otherExc "database error"), table := db, connClosed := false }
  else upload_csv_body bf file db

/-- Evaluation of `upload_csv` when the pre-`try` region succeeds. -/
theorem upload_csv_count_ok (bf : Bool) (file : CSVStream) (db : List Row) :
    upload_csv false bf file db = upload_csv_body bf file db := rfl

/-- Evaluation of `upload_csv` when the initial row-count query raises. -/
theorem upload_csv_count_fails (bf : Bool) (file : CSVStream) (db : List Row) :
    upload_csv true bf file db
      = { result := .error (.otherExc "database error"), table := db, connClosed := false } :=
  rfl

/-- Lexicographic (byte-wise) strict comparison of character lists, as
SQLite's `memcmp`-based TEXT ordering compares the stored ISO timestamp
strings. -/
def charsLt : List Char → List Char → Bool
  | [], [] => false
  | [], _ :: _ => true
  | _ :: _, [] => false
  | a :: as, b :: bs => if a < b then true else if b < a then false else charsLt as bs

/-- SQLite TEXT `<=`, used by the `timestamp >= ?` / `timestamp <= ?`
conditions of the summary query. -/
def strLe (a b : String) : Bool := !(charsLt b.data a.data)

/-- The WHERE clause of the summary query (`storage.py` lines 151-153):
`user_id = ? AND timestamp >= ? AND timestamp <= ?`. -/
def matchesQuery (u : Int) (sd ed : String) (r : Row) : Bool :=
  r.user_id == u && strLe sd r.timestamp && strLe r.timestamp ed

/-- The rows matched by the summary query's WHERE clause. -/
def queryMatches (db : List Row) (u : Int) (sd ed : String) : List Row :=
  db.filter (matchesQuery u sd ed)

/-- SQL `MAX` over the matched amounts (value irrelevant on the empty
list, where the query result is discarded as NotFound). -/
def sqlMax : List ℚ → ℚ
  | [] => 0
  | a :: as => as.foldl max a

/-- SQL `MIN` over the matched amounts. -/
def sqlMin : List ℚ → ℚ
  | [] => 0
  | a :: as => as.foldl min a

/-- SQL `AVG` over the matched amounts. -/
def sqlAvg (l : List ℚ) : ℚ := l.sum / (l.length : ℚ)

/-- Python's `round(x, 2)` on the exact rational value. -/
def round2 (q : ℚ) : ℚ := ((round (q * 100) : ℤ) : ℚ) / 100

/-- The message of the `ValueError` raised when no transaction matches
(`storage.py` lines 163-167). -/
def notFoundMsg (u : Int) (sd ed : String) : String :=
  "No transactions found for user_id " ++ toString u ++ " between " ++
    sd ++ " and " ++ ed

/-- The `SummaryResponse` payload (`models.py`). -/
structure SummaryResponse where
  user_id : Int
  transaction_count : Nat
  max_amount : ℚ
  min_amount : ℚ
  mean_amount : ℚ
  start_date : String
  end_date : String
deriving Repr, DecidableEq

/-- Everything observable about one `get_summary` call.  The query is
read-only, so the table is not part of the outcome. -/
structure SummaryOutcome where
  result : Except SurfacedExc SummaryResponse
  connClosed : Bool

/-- Model of `Database.get_summary` (`storage.py` lines 138-178).  There
is no `try`/`finally` here: `connection.close()` on line 160 runs after
the query executes and before the zero-count check, so the NotFound raise
and the success return both close the connection, but a backend exception
raised by `cursor.execute` propagates with the connection still open. -/
def get_summary (bf : Bool) (db : List Row) (u : Int) (sd ed : String) :
    SummaryOutcome :=
  if bf then { result := .error (.otherExc "database error"), connClosed := false }
  else
    let ms := queryMatches db u sd ed
    let amounts := ms.map (·.transaction_amount)
    if ms.length = 0 then
      { result := .error (.valueError (notFoundMsg u sd ed)), connClosed := true }
    else
      { result := .ok { user_id := u
                        transaction_count := ms.length
                        max_amount := sqlMax amounts
                        min_amount := sqlMin amounts
                        mean_amount := round2 (sqlAvg amounts)
                        start_date := sd
                        end_date := ed }
        connClosed := true }

/-- The `ClearResponse` payload (`models.py`). -/
structure ClearResponse where
  success : Bool
  message : String
deriving Repr, DecidableEq

/-- Model of `Database.clear` (`storage.py` lines 181-197): delete every
row, report `cursor.rowcount` (the number of rows the DELETE removed). -/
def clear (db : List Row) : ClearResponse × List Row :=
  ({ success := true, message := toString db.length ++ " Transactions deleted" }, [])

/-- The status code `main.py`'s `/upload` handler (lines 31-40) attaches
to an exception escaping `db.upload_csv`: `ValueError` is caught first and
mapped to 400, anything else falls to the 500 handler. -/
def uploadHttpStatus : SurfacedExc → Nat
  | .valueError _ => 400
  | .otherExc _ => 500

/-- The status code `main.py`'s `/summary` handler (lines 52-61) attaches
to an exception escaping `db.get_summary`: `ValueError` maps to 404,
anything else to 500. -/
def summaryHttpStatus : SurfacedExc → Nat
  | .valueError _ => 404
  | .otherExc _ => 500

/-- One call against the `Database` object, for stating invariants over
operation sequences. -/
inductive Op where
  | uploadOp (cf bf : Bool) (file : CSVStream)
  | summaryOp (bf : Bool) (u : Int) (sd ed : String)
  | clearOp

/-- The table contents after one operation. -/
def applyOp (db : List Row) : Op → List Row
  | .uploadOp cf bf f => (upload_csv cf bf f db).table
  | .summaryOp _ _ _ _ => db
  | .clearOp => (clear db).2

/-- The table contents after a sequence of operations. -/
def applyOps (db : List Row) (ops : List Op) : List Row := ops.foldl applyOp db

/-- A parsed string cell is never the empty string: pandas maps an empty
CSV cell to NaN (`none`), not to `""`. -/
def rawStrOk : Option String → Bool
  | none => true
  | some s => !(s == "")

/-- Well-formedness of a parsed raw row with respect to the CSV origin of
its string cells. -/
def rawRowWF (r : RawRow) : Bool := rawStrOk r.transaction_id && rawStrOk r.timestamp

/-- Well-formedness of a stream: its parsed string cells are none or
nonempty. -/
def streamWF : CSVStream → Bool
  | .content _ rows => rows.all rawRowWF
  | _ => true

/-- Well-formedness of an operation (only uploads carry a stream). -/
def opWF : Op → Bool
  | .uploadOp _ _ f => streamWF f
  | _ => true

/-- The per-record part of the stored-data invariant: strictly positive
`user_id`, `product_id` and `transaction_amount`, and no null/empty
field. -/
def RowOK (r : Row) : Prop :=
  0 < r.user_id ∧ 0 < r.product_id ∧ 0 < r.transaction_amount ∧
    r.transaction_id ≠ "" ∧ r.timestamp ≠ ""

instance (r : Row) : Decidable (RowOK r) := by unfold RowOK; infer_instance

/-- The stored-data invariant of spec §3: unique `transaction_id`s and
every record individually well-formed. -/
def Invariant (db : List Row) : Prop :=
  (db.map (·.transaction_id)).Nodup ∧ ∀ r ∈ db, RowOK r

instance (db : List Row) : Decidable (Invariant db) := by
  unfold Invariant; infer_instance

/-- The `ValueError` messages of the three integrity checks — the
`IntegrityViolation` failure class of spec §4.1/§7. -/
def integrityMessages : List String :=
  ["CSV contains null/empty values", "Transaction amounts must be positive",
    "User ID and Product ID must be positive"]

/-! ### Chunking lemmas -/

theorem concatChunks_chunksFuel (n : Nat) :
    ∀ (fuel : Nat) (l : List RawRow), l.length ≤ fuel →
      concatChunks (chunksFuel n fuel l) = l := by
  intro fuel
  induction fuel with
  | zero =>
    intro l hl
    have : l = [] := List.eq_nil_of_length_eq_zero (Nat.le_zero.mp hl)
    subst this; rfl
  | succ fuel ih =>
    intro l hl
    cases l with
    | nil => rfl
    | cons r rs =>
      have hstep : chunksFuel n (fuel + 1) (r :: rs)
          = (r :: rs.take (n - 1)) :: chunksFuel n fuel (rs.drop (n - 1)) := rfl
      have hlen : (rs.drop (n - 1)).length ≤ fuel := by
        simp only [List.length_drop]
        simp only [List.length_cons] at hl
        omega
      rw [hstep]
      show (r :: rs.take (n - 1)) ++ concatChunks (chunksFuel n fuel (rs.drop (n - 1)))
          = r :: rs
      rw [ih _ hlen]
      simp [List.take_append_drop]

theorem concatChunks_chunksOf (n : Nat) (l : List RawRow) :
    concatChunks (chunksOf n l) = l :=
  concatChunks_chunksFuel n l.length l le_rfl

theorem mem_concatChunks (r : RawRow) :
    ∀ (cs : List (List RawRow)), r ∈ concatChunks cs ↔ ∃ c ∈ cs, r ∈ c := by
  intro cs
  induction cs with
  | nil => simp [concatChunks]
  | cons c cs ih => simp [concatChunks, List.mem_append, ih]

theorem chunksOf_nil (n : Nat) : chunksOf n [] = [] := rfl

theorem chunksOf_cons (n : Nat) (r : RawRow) (rs : List RawRow) :
    chunksOf n (r :: rs)
      = (r :: rs.take (n - 1)) :: chunksFuel n rs.length (rs.drop (n - 1)) := rfl

/-! ### Validation-check lemmas -/

theorem rowViolates_false_parts (r : RawRow) (h : rowViolates r = false) :
    rowHasNull r = false ∧ rowBadAmount r = false ∧ rowBadId r = false := by
  simp only [rowViolates, Bool.or_eq_false_iff] at h
  exact ⟨h.1.1, h.1.2, h.2⟩

theorem checkChunk_ok_of_valid (c : List RawRow)
    (h : ∀ r ∈ c, rowViolates r = false) : checkChunk c = .ok () := by
  have h1 : c.any rowHasNull = false := by
    simp only [List.any_eq_false]
    intro r hr
    simp [(rowViolates_false_parts r (h r hr)).1]
  have h2 : c.any rowBadAmount = false := by
    simp only [List.any_eq_false]
    intro r hr
    simp [(rowViolates_false_parts r (h r hr)).2.1]
  have h3 : c.any rowBadId = false := by
    simp only [List.any_eq_false]
    intro r hr
    simp [(rowViolates_false_parts r (h r hr)).2.2]
  simp [checkChunk, h1, h2, h3]

theorem checkChunk_ok_forall (c : List RawRow) (h : checkChunk c = .ok ()) :
    ∀ r ∈ c, rowViolates r = false := by
  intro r hr
  unfold checkChunk at h
  split_ifs at h with h1 h2 h3
  simp only [Bool.not_eq_true, List.any_eq_false] at h1 h2 h3
  simp [rowViolates, h1 r hr, h2 r hr, h3 r hr]

theorem checkChunk_error_integrity (c : List RawRow) (e : UploadErr)
    (h : checkChunk c = .error e) :
    e = .nullValues ∨ e = .nonPositiveAmount ∨ e = .nonPositiveId := by
  unfold checkChunk at h
  split_ifs at h <;> simp_all

theorem checkChunk_error_of_violation (c : List RawRow) (r : RawRow)
    (hr : r ∈ c) (hv : rowViolates r = true) :
    ∃ e, checkChunk c = .error e ∧
      (e = .nullValues ∨ e = .nonPositiveAmount ∨ e = .nonPositiveId) := by
  cases hok : checkChunk c with
  | error e => exact ⟨e, rfl, checkChunk_error_integrity c e hok⟩
  | ok u =>
    cases u
    exact absurd (checkChunk_ok_forall c hok r hr) (by simp [hv])

/-! ### Insertion lemmas -/

theorem insertRows_ok_append :
    ∀ (rs working : List Row),
      (∀ r ∈ rs, ∀ q ∈ working, q.transaction_id ≠ r.transaction_id) →
      (rs.map Row.transaction_id).Nodup →
      insertRows working rs = .ok (working ++ rs) := by
  intro rs
  induction rs with
  | nil => intro working _ _; simp [insertRows]
  | cons r rest ih =>
    intro working hfresh hnodup
    have hany : (working.any fun q => q.transaction_id == r.transaction_id) = false := by
      simp only [List.any_eq_false]
      intro q hq
      simp [hfresh r (by simp) q hq]
    simp only [insertRows, hany, Bool.false_eq_true, if_false]
    have hnodup' : (rest.map Row.transaction_id).Nodup := by
      simp only [List.map_cons, List.nodup_cons] at hnodup
      exact hnodup.2
    have hnotmem : r.transaction_id ∉ rest.map Row.transaction_id := by
      simp only [List.map_cons, List.nodup_cons] at hnodup
      exact hnodup.1
    have hfresh' : ∀ x ∈ rest, ∀ q ∈ working ++ [r], q.transaction_id ≠ x.transaction_id := by
      intro x hx q hq
      rcases List.mem_append.mp hq with hq | hq
      · exact hfresh x (by simp [hx]) q hq
      · have : q = r := by simpa using hq
        subst this
        intro hc
        exact hnotmem (hc ▸ List.mem_map_of_mem Row.transaction_id hx)
    rw [ih (working ++ [r]) hfresh' hnodup']
    simp

theorem insertRows_ok_invariant :
    ∀ (rs working out : List Row),
      insertRows working rs = .ok out → Invariant working →
      (∀ r ∈ rs, RowOK r) → Invariant out := by
  intro rs
  induction rs with
  | nil =>
    intro working out h hinv _
    simp only [insertRows] at h
    cases h
    exact hinv
  | cons r rest ih =>
    intro working out h hinv hok
    by_cases hany : (working.any fun q => q.transaction_id == r.transaction_id) = true
    · simp [insertRows, hany] at h
    · have hany' : (working.any fun q => q.transaction_id == r.transaction_id) = false :=
        Bool.eq_false_iff.mpr hany
      simp only [insertRows, hany', Bool.false_eq_true, if_false] at h
      have hok' : ∀ x ∈ rest, RowOK x := fun x hx => hok x (List.mem_cons_of_mem r hx)
      refine ih (working ++ [r]) out h ?_ hok'
      constructor
      · simp only [List.map_append, List.map_cons, List.map_nil]
        rw [List.nodup_append]
        refine ⟨hinv.1, List.nodup_singleton _, ?_⟩
        intro a ha hb
        simp only [List.mem_singleton] at hb
        subst hb
        rcases List.mem_map.mp ha with ⟨q, hq, hqa⟩
        simp only [List.any_eq_false] at hany'
        exact absurd hqa (by simpa using hany' q hq)
      · intro x hx
        rcases List.mem_append.mp hx with hx2 | hx2
        · exact hinv.2 x hx2
        · have hxr : x = r := by simpa using hx2
          subst hxr
          exact hok x (List.mem_cons_self x rest)

/-! ### Chunk-loop lemmas -/

theorem freshness_step (c rest : List RawRow) (working : List Row)
    (hfresh : ∀ r ∈ c ++ rest, ∀ q ∈ working,
      q.transaction_id ≠ (rawToRow r).transaction_id)
    (hnodup : ((c ++ rest).map fun r => (rawToRow r).transaction_id).Nodup) :
    insertRows working (c.map rawToRow) = .ok (working ++ c.map rawToRow) ∧
    (∀ r ∈ rest, ∀ q ∈ working ++ c.map rawToRow,
      q.transaction_id ≠ (rawToRow r).transaction_id) ∧
    ((rest.map fun r => (rawToRow r).transaction_id).Nodup) := by
  rw [List.map_append] at hnodup
  rcases List.nodup_append.mp hnodup with ⟨hn1, hn2, hdisj⟩
  refine ⟨?_, ?_, hn2⟩
  · apply insertRows_ok_append
    · intro x hx q hq
      rcases List.mem_map.mp hx with ⟨r, hr, hxr⟩
      subst hxr
      exact hfresh r (List.mem_append_left _ hr) q hq
    · simpa [List.map_map, Function.comp] using hn1
  · intro r hr q hq
    rcases List.mem_append.mp hq with hq2 | hq2
    · exact hfresh r (List.mem_append_right _ hr) q hq2
    · rcases List.mem_map.mp hq2 with ⟨x, hx, hxq⟩
      subst hxq
      intro hc
      exact hdisj (List.mem_map_of_mem _ hx)
        (hc ▸ List.mem_map_of_mem (fun r => (rawToRow r).transaction_id) hr)

theorem processChunks_ok_on_valid :
    ∀ (cs : List (List RawRow)) (fc : Bool) (working : List Row),
      (∀ r ∈ concatChunks cs, rawRowValid r = true) →
      (∀ r ∈ concatChunks cs, ∀ q ∈ working,
        q.transaction_id ≠ (rawToRow r).transaction_id) →
      ((concatChunks cs).map fun r => (rawToRow r).transaction_id).Nodup →
      processChunks false expectedColumns fc working cs
        = .ok (working ++ (concatChunks cs).map rawToRow) := by
  intro cs
  induction cs with
  | nil =>
    intro fc working _ _ _
    simp [processChunks, concatChunks]
  | cons c cs ih =>
    intro fc working hv hfresh hnodup
    have hcc : concatChunks (c :: cs) = c ++ concatChunks cs := rfl
    rw [hcc] at hv hfresh hnodup
    obtain ⟨hins, hfresh', hnodup'⟩ := freshness_step c (concatChunks cs) working hfresh hnodup
    have hchk : checkChunk c = .ok () := by
      apply checkChunk_ok_of_valid
      intro r hr
      have := hv r (List.mem_append_left _ hr)
      simpa [rawRowValid] using this
    have hv' : ∀ r ∈ concatChunks cs, rawRowValid r = true :=
      fun r hr => hv r (List.mem_append_right _ hr)
    simp only [processChunks, beq_self_eq_true, Bool.not_true, Bool.and_false,
      Bool.false_eq_true, if_false, hchk, hins]
    rw [ih false (working ++ c.map rawToRow) hv' hfresh' hnodup']
    rw [hcc]
    simp [List.map_append, List.append_assoc]

theorem processChunks_integrity_error :
    ∀ (cs : List (List RawRow)) (fc : Bool) (working : List Row),
      (∀ r ∈ concatChunks cs, ∀ q ∈ working,
        q.transaction_id ≠ (rawToRow r).transaction_id) →
      ((concatChunks cs).map fun r => (rawToRow r).transaction_id).Nodup →
      (∃ r ∈ concatChunks cs, rowViolates r = true) →
      ∃ e, processChunks false expectedColumns fc working cs = .error e ∧
        uploadErrMsg e ∈ integrityMessages := by
  intro cs
  induction cs with
  | nil =>
    intro fc working _ _ hviol
    simp [concatChunks] at hviol
  | cons c cs ih =>
    intro fc working hfresh hnodup hviol
    have hcc : concatChunks (c :: cs) = c ++ concatChunks cs := rfl
    rw [hcc] at hfresh hnodup hviol
    obtain ⟨hins, hfresh', hnodup'⟩ := freshness_step c (concatChunks cs) working hfresh hnodup
    cases hchk : checkChunk c with
    | error e =>
      refine ⟨e, ?_, ?_⟩
      · simp only [processChunks, beq_self_eq_true, Bool.not_true, Bool.and_false,
          Bool.false_eq_true, if_false, hchk]
      · rcases checkChunk_error_integrity c e hchk with h | h | h <;>
          subst h <;> simp [uploadErrMsg, integrityMessages]
    | ok u =>
      cases u
      have hclean := checkChunk_ok_forall c hchk
      have hviol' : ∃ r ∈ concatChunks cs, rowViolates r = true := by
        rcases hviol with ⟨r, hr, hv⟩
        rcases List.mem_append.mp hr with hr2 | hr2
        · exact absurd (hclean r hr2) (by simp [hv])
        · exact ⟨r, hr2, hv⟩
      obtain ⟨e, he, hmem⟩ := ih false (working ++ c.map rawToRow) hfresh' hnodup' hviol'
      refine ⟨e, ?_, hmem⟩
      simp only [processChunks, beq_self_eq_true, Bool.not_true, Bool.and_false,
        Bool.false_eq_true, if_false, hchk, hins, he]

theorem rawToRow_ok (r : RawRow) (hcl : rowViolates r = false) (hwf : rawRowWF r = true) :
    RowOK (rawToRow r) := by
  obtain ⟨h1, h2, h3⟩ := rowViolates_false_parts r hcl
  simp only [rowHasNull, Bool.or_eq_false_iff] at h1
  obtain ⟨⟨⟨⟨hn1, hn2⟩, hn3⟩, hn4⟩, hn5⟩ := h1
  obtain ⟨tid, hT⟩ : ∃ t, r.transaction_id = some t := by
    cases h : r.transaction_id
    · rw [h] at hn1; simp at hn1
    · exact ⟨_, rfl⟩
  obtain ⟨uid, hU⟩ : ∃ t, r.user_id = some t := by
    cases h : r.user_id
    · rw [h] at hn2; simp at hn2
    · exact ⟨_, rfl⟩
  obtain ⟨pid, hP⟩ : ∃ t, r.product_id = some t := by
    cases h : r.product_id
    · rw [h] at hn3; simp at hn3
    · exact ⟨_, rfl⟩
  obtain ⟨ts, hS⟩ : ∃ t, r.timestamp = some t := by
    cases h : r.timestamp
    · rw [h] at hn4; simp at hn4
    · exact ⟨_, rfl⟩
  obtain ⟨amt, hA⟩ : ∃ t, r.transaction_amount = some t := by
    cases h : r.transaction_amount
    · rw [h] at hn5; simp at hn5
    · exact ⟨_, rfl⟩
  simp only [rowBadAmount, hA, decide_eq_false_iff_not, not_le] at h2
  simp only [rowBadId, hU, hP, Bool.or_eq_false_iff, decide_eq_false_iff_not, not_le] at h3
  simp only [rawRowWF, hT, hS, rawStrOk, Bool.and_eq_true, Bool.not_eq_eq_eq_not,
    Bool.not_true, beq_eq_false_iff_ne, ne_eq] at hwf
  refine ⟨?_, ?_, ?_, ?_, ?_⟩ <;>
    simp [rawToRow, hT, hU, hP, hS, hA, h2, h3.1, h3.2, hwf.1, hwf.2]

theorem processChunks_ok_invariant (bf : Bool) (header : List String) :
    ∀ (cs : List (List RawRow)) (fc : Bool) (working out : List Row),
      processChunks bf header fc working cs = .ok out →
      Invariant working →
      (∀ r ∈ concatChunks cs, rawRowWF r = true) →
      Invariant out := by
  intro cs
  induction cs with
  | nil =>
    intro fc working out h hinv _
    simp only [processChunks] at h
    cases h
    exact hinv
  | cons c cs ih =>
    intro fc working out h hinv hwf
    have hcc : concatChunks (c :: cs) = c ++ concatChunks cs := rfl
    rw [hcc] at hwf
    by_cases hguard : (fc && !(header == expectedColumns)) = true
    · simp [processChunks, hguard] at h
    · have hguard' : (fc && !(header == expectedColumns)) = false :=
        Bool.eq_false_iff.mpr hguard
      simp only [processChunks, hguard', Bool.false_eq_true, if_false] at h
      cases hchk : checkChunk c with
      | error e => simp [hchk] at h
      | ok u =>
        cases u
        simp only [hchk] at h
        cases hbf : bf with
        | true => rw [hbf] at h; simp at h
        | false =>
          subst hbf
          simp only [Bool.false_eq_true, if_false] at h
          cases hins : insertRows working (c.map rawToRow) with
          | error e => simp [hins] at h
          | ok working2 =>
            simp only [hins] at h
            have hclean := checkChunk_ok_forall c hchk
            have hinv2 : Invariant working2 := by
              apply insertRows_ok_invariant (c.map rawToRow) working working2 hins hinv
              intro x hx
              rcases List.mem_map.mp hx with ⟨r, hr, hxr⟩
              subst hxr
              exact rawToRow_ok r (hclean r hr) (hwf r (List.mem_append_left _ hr))
            exact ih false working2 out h hinv2
              fun r hr => hwf r (List.mem_append_right _ hr)

/-! ### Aggregate lemmas -/

theorem foldl_min_le_init (l : List ℚ) : ∀ acc : ℚ, l.foldl min acc ≤ acc := by
  induction l with
  | nil => intro acc; simp
  | cons b l ih =>
    intro acc
    exact le_trans (ih (min acc b)) (min_le_left acc b)

theorem foldl_min_le_mem (l : List ℚ) : ∀ acc x : ℚ, x ∈ l → l.foldl min acc ≤ x := by
  induction l with
  | nil => intro acc x hx; simp at hx
  | cons b l ih =>
    intro acc x hx
    rcases List.mem_cons.mp hx with h | h
    · rw [h]
      exact le_trans (foldl_min_le_init l (min acc b)) (min_le_right acc b)
    · exact ih (min acc b) x h

theorem sqlMin_le_mem (l : List ℚ) (x : ℚ) (hx : x ∈ l) : sqlMin l ≤ x := by
  cases l with
  | nil => simp at hx
  | cons a as =>
    rcases List.mem_cons.mp hx with h | h
    · rw [h]
      exact foldl_min_le_init as a
    · exact foldl_min_le_mem as a x h

theorem le_foldl_max_init (l : List ℚ) : ∀ acc : ℚ, acc ≤ l.foldl max acc := by
  induction l with
  | nil => intro acc; simp
  | cons b l ih =>
    intro acc
    exact le_trans (le_max_left acc b) (ih (max acc b))

theorem mem_le_foldl_max (l : List ℚ) : ∀ acc x : ℚ, x ∈ l → x ≤ l.foldl max acc := by
  induction l with
  | nil => intro acc x hx; simp at hx
  | cons b l ih =>
    intro acc x hx
    rcases List.mem_cons.mp hx with h | h
    · rw [h]
      exact le_trans (le_max_right acc b) (le_foldl_max_init l (max acc b))
    · exact ih (max acc b) x h

theorem mem_le_sqlMax (l : List ℚ) (x : ℚ) (hx : x ∈ l) : x ≤ sqlMax l := by
  cases l with
  | nil => simp at hx
  | cons a as =>
    rcases List.mem_cons.mp hx with h | h
    · rw [h]
      exact le_foldl_max_init as a
    · exact mem_le_foldl_max as a x h

theorem length_mul_le_sum (l : List ℚ) (m : ℚ) (h : ∀ x ∈ l, m ≤ x) :
    (l.length : ℚ) * m ≤ l.sum := by
  induction l with
  | nil => simp
  | cons a as ih =>
    simp only [List.length_cons, List.sum_cons]
    push_cast
    have h1 : m ≤ a := h a (List.mem_cons_self a as)
    have h2 : (as.length : ℚ) * m ≤ as.sum := ih fun x hx => h x (List.mem_cons_of_mem a hx)
    nlinarith [h1, h2]

theorem sum_le_length_mul (l : List ℚ) (m : ℚ) (h : ∀ x ∈ l, x ≤ m) :
    l.sum ≤ (l.length : ℚ) * m := by
  induction l with
  | nil => simp
  | cons a as ih =>
    simp only [List.length_cons, List.sum_cons]
    push_cast
    have h1 : a ≤ m := h a (List.mem_cons_self a as)
    have h2 : as.sum ≤ (as.length : ℚ) * m := ih fun x hx => h x (List.mem_cons_of_mem a hx)
    nlinarith [h1, h2]

theorem sqlMin_le_sqlAvg (l : List ℚ) (hl : l ≠ []) : sqlMin l ≤ sqlAvg l := by
  have hlen : 0 < (l.length : ℚ) := by
    have := List.length_pos.mpr hl
    exact_mod_cast this
  rw [sqlAvg, le_div_iff hlen]
  have := length_mul_le_sum l (sqlMin l) fun x hx => sqlMin_le_mem l x hx
  nlinarith [this]

theorem sqlAvg_le_sqlMax (l : List ℚ) (hl : l ≠ []) : sqlAvg l ≤ sqlMax l := by
  have hlen : 0 < (l.length : ℚ) := by
    have := List.length_pos.mpr hl
    exact_mod_cast this
  rw [sqlAvg, div_le_iff hlen]
  have := sum_le_length_mul l (sqlMax l) fun x hx => mem_le_sqlMax l x hx
  nlinarith [this]

theorem round2_close (q : ℚ) : |round2 q - q| ≤ 1 / 200 := by
  have h : |q * 100 - ((round (q * 100) : ℤ) : ℚ)| ≤ 1 / 2 := abs_sub_round (q * 100)
  have h100 : (0 : ℚ) < 100 := by norm_num
  have hrw : round2 q - q = (((round (q * 100) : ℤ) : ℚ) - q * 100) / 100 := by
    rw [round2]; field_simp; ring
  rw [hrw, abs_div, abs_of_pos h100]
  rw [div_le_div_iff h100 (by norm_num : (0 : ℚ) < 200)]
  rw [abs_sub_comm] at h
  nlinarith [h]

/-! ### Sample data for witnesses and counterexamples -/

deriving instance DecidableEq for Except

/-- A well-formed raw CSV row. -/
def goodRawA : RawRow :=
  ⟨some "T001", some 42, some 100, some "2024-01-15 10:00:00", some (2 : ℚ)⟩

/-- A second well-formed raw CSV row with a distinct id. -/
def goodRawB : RawRow :=
  ⟨some "T002", some 42, some 101, some "2024-02-20 11:00:00", some (5 : ℚ)⟩

/-- A raw CSV row with a negative `transaction_amount`. -/
def badAmountRaw : RawRow :=
  ⟨some "T003", some 42, some 102, some "2024-03-25 12:00:00", some (-1 : ℚ)⟩

/-- A stored record used as a pre-existing table row. -/
def sampleRowA : Row := ⟨"S001", 42, 100, "2024-06-01 10:00:00", (2 : ℚ)⟩

/-! ### Claim theorems -/

/-- C4: for every valid CSV input whose rows are all well-formed, with
`transaction_id`s pairwise distinct and absent from storage, ingestion
succeeds, appends exactly the `N` input rows, and reports
`rows_processed = N` (computed as row-count after minus row-count
before). -/
theorem upload_valid_inserts_all (db : List Row) (rows : List RawRow)
    (hvalid : ∀ r ∈ rows, rawRowValid r = true)
    (hnodup : (rows.map fun r => (rawToRow r).transaction_id).Nodup)
    (hfresh : ∀ r ∈ rows, ∀ q ∈ db, q.transaction_id ≠ (rawToRow r).transaction_id) :
    (upload_csv false false (.content expectedColumns rows) db).result
      = .ok { success := true, message := "Transactions uploaded successfully",
              rows_processed := (rows.length : Int) } ∧
    (upload_csv false false (.content expectedColumns rows) db).table
      = db ++ rows.map rawToRow := by
  have hcc := concatChunks_chunksOf CHUNK_SIZE rows
  have hok := processChunks_ok_on_valid (chunksOf CHUNK_SIZE rows) true db
    (by rw [hcc]; exact hvalid) (by rw [hcc]; exact hfresh) (by rw [hcc]; exact hnodup)
  rw [hcc] at hok
  constructor
  · simp only [upload_csv_count_ok, upload_csv_body, read_csv, hok, Except.ok.injEq, UploadResponse.mk.injEq,
      List.length_append, List.length_map, true_and]
    push_cast
    ring
  · simp only [upload_csv_count_ok, upload_csv_body, read_csv, hok]

/-- Witness for C4 at a concrete two-row valid upload into an empty
table. -/
theorem upload_valid_inserts_all_witness :
    ((∀ r ∈ [goodRawA, goodRawB], rawRowValid r = true) ∧
      ([goodRawA, goodRawB].map fun r => (rawToRow r).transaction_id).Nodup ∧
      (∀ r ∈ [goodRawA, goodRawB], ∀ q ∈ ([] : List Row),
        q.transaction_id ≠ (rawToRow r).transaction_id)) ∧
    ((upload_csv false false (.content expectedColumns [goodRawA, goodRawB]) []).result
        = .ok { success := true, message := "Transactions uploaded successfully",
                rows_processed := ([goodRawA, goodRawB].length : Int) } ∧
      (upload_csv false false (.content expectedColumns [goodRawA, goodRawB]) []).table
        = [] ++ [goodRawA, goodRawB].map rawToRow) :=
  ⟨⟨by decide, by decide, by decide⟩,
    upload_valid_inserts_all [] [goodRawA, goodRawB] (by decide) (by decide) (by decide)⟩

/-- C5: for every upload with at least one data row whose header does not
exactly match the five expected column names in order, ingestion fails on
the first chunk with the schema-mismatch `ValueError` and the table is
unchanged — no row of the upload is written.  (With zero data rows the
chunk loop never runs and the header is never checked; see C3.) -/
theorem upload_schema_mismatch (bf : Bool) (db : List Row) (header : List String)
    (rows : List RawRow) (hbad : header ≠ expectedColumns) (hrows : rows ≠ []) :
    (upload_csv false bf (.content header rows) db).result
      = .error (.valueError ("ERROR: " ++ uploadErrMsg (.invalidColumns header))) ∧
    (upload_csv false bf (.content header rows) db).table = db := by
  obtain ⟨r, rs, hrw⟩ := List.exists_cons_of_ne_nil hrows
  subst hrw
  have hbeq : (header == expectedColumns) = false := beq_eq_false_iff_ne.mpr hbad
  have hpc : processChunks bf header true db (chunksOf CHUNK_SIZE (r :: rs))
      = .error (.invalidColumns header) := by
    rw [chunksOf_cons]
    simp [processChunks, hbeq]
  constructor <;> simp only [upload_csv_count_ok, upload_csv_body, read_csv, hpc]

/-- Witness for C5 at a concrete one-row upload with a wrong header. -/
theorem upload_schema_mismatch_witness :
    ((["wrong"] : List String) ≠ expectedColumns ∧ ([goodRawA] : List RawRow) ≠ []) ∧
    ((upload_csv false false (.content ["wrong"] [goodRawA]) []).result
        = .error (.valueError ("ERROR: " ++ uploadErrMsg (.invalidColumns ["wrong"]))) ∧
      (upload_csv false false (.content ["wrong"] [goodRawA]) []).table = []) :=
  ⟨⟨by decide, by decide⟩,
    upload_schema_mismatch false [] ["wrong"] [goodRawA] (by decide) (by decide)⟩

/-- C3 counterexample: an input with the correct header row and no data
rows is ingested successfully with `rows_processed = 0` — it does not fail
with the empty-file condition, refuting the claim that every input stream
containing no data rows fails and never returns a success result. -/
theorem upload_header_only_succeeds :
    (upload_csv false false (.content expectedColumns []) []).result
      = .ok { success := true, message := "Transactions uploaded successfully",
              rows_processed := 0 } := by decide

/-- C3 amended: a zero-byte stream fails with the `EmptyDataError`-derived
"CSV file is empty" condition and writes nothing; but a stream consisting
of only a header row yields zero chunks, so the loop never runs and
ingestion returns success with `rows_processed = 0`. -/
theorem upload_empty_vs_header_only (bf : Bool) (db : List Row) :
    ((upload_csv false bf .empty db).result = .error (.valueError "CSV file is empty") ∧
      (upload_csv false bf .empty db).table = db) ∧
    ((upload_csv false bf (.content expectedColumns []) db).result
        = .ok { success := true, message := "Transactions uploaded successfully",
                rows_processed := 0 } ∧
      (upload_csv false bf (.content expectedColumns []) db).table = db) := by
  refine ⟨⟨rfl, rfl⟩, ?_, rfl⟩
  simp [upload_csv_count_ok, upload_csv_body, read_csv, chunksOf, chunksFuel, processChunks]

/-- C10: every failure raised inside `upload_csv` after parsing begins —
including an unexpected storage-backend error raised during chunk
insertion — is surfaced as a `ValueError`, so `main.py`'s handler routes
it to the 400 validation-failure path, never to the distinct 500
storage-error path.  The claim's after-parsing-begins scope is the region
guarded by the `try` at `storage.py` line 52, so the pre-`try` flag is
instantiated to `false`. -/
theorem upload_failures_are_valueError_400 (bf : Bool) (file : CSVStream)
    (db : List Row) (e : SurfacedExc)
    (h : (upload_csv false bf file db).result = .error e) :
    (∃ m, e = .valueError m) ∧ uploadHttpStatus e = 400 := by
  suffices h2 : ∃ m, e = .valueError m by
    rcases h2 with ⟨m, hm⟩
    subst hm
    exact ⟨⟨m, rfl⟩, rfl⟩
  cases file with
  | empty =>
    simp only [upload_csv_count_ok, upload_csv_body, read_csv] at h
    injection h with h1
    exact ⟨_, h1.symm⟩
  | malformed =>
    simp only [upload_csv_count_ok, upload_csv_body, read_csv] at h
    injection h with h1
    exact ⟨_, h1.symm⟩
  | content header rows =>
    cases hpc : processChunks bf header true db (chunksOf CHUNK_SIZE rows) with
    | error e2 =>
      simp only [upload_csv_count_ok, upload_csv_body, read_csv, hpc] at h
      injection h with h1
      exact ⟨_, h1.symm⟩
    | ok working =>
      simp only [upload_csv_count_ok, upload_csv_body, read_csv, hpc] at h
      simp at h

/-- Witness for C10 at a backend failure during an otherwise valid
upload: the surfaced exception is a `ValueError` and is mapped to 400. -/
theorem upload_failures_are_valueError_400_witness :
    ((upload_csv false true (.content expectedColumns [goodRawA]) []).result
        = .error (.valueError "ERROR: database error")) ∧
    ((∃ m, (SurfacedExc.valueError "ERROR: database error") = .valueError m) ∧
      uploadHttpStatus (.valueError "ERROR: database error") = 400) :=
  ⟨by decide,
    upload_failures_are_valueError_400 true (.content expectedColumns [goodRawA]) []
      (.valueError "ERROR: database error") (by decide)⟩

/-- Evaluation form of `get_summary` in normal backend operation. -/
theorem get_summary_eval (db : List Row) (u : Int) (sd ed : String) :
    get_summary false db u sd ed
      = if (queryMatches db u sd ed).length = 0 then
          { result := .error (.valueError (notFoundMsg u sd ed)), connClosed := true }
        else
          { result := .ok
              { user_id := u
                transaction_count := (queryMatches db u sd ed).length
                max_amount := sqlMax ((queryMatches db u sd ed).map fun r => r.transaction_amount)
                min_amount := sqlMin ((queryMatches db u sd ed).map fun r => r.transaction_amount)
                mean_amount := round2 (sqlAvg ((queryMatches db u sd ed).map fun r => r.transaction_amount))
                start_date := sd
                end_date := ed }
            connClosed := true } := rfl

/-- A stored record whose timestamp lies on day `2024-01-15` with a
time-of-day component. -/
def endDayRow : Row := ⟨"E001", 42, 100, "2024-01-15 10:00:00", (2 : ℚ)⟩

/-- C2 counterexample: a stored record for user 42 whose timestamp falls
on the `end_date` day (`"2024-01-15 10:00:00"`, whose first ten characters
are the end date `"2024-01-15"`) is NOT counted: the query over
`[2024-01-01, 2024-01-15]` matches nothing and fails with NotFound,
because `"2024-01-15 10:00:00"` is lexicographically greater than
`"2024-01-15"`.  This refutes the claim's assertion that records on the
end-date day are included. -/
theorem summary_end_day_excluded :
    endDayRow.user_id = 42 ∧
    endDayRow.timestamp.take 10 = "2024-01-15" ∧
    (get_summary false [endDayRow] 42 "2024-01-01" "2024-01-15").result
      = .error (.valueError (notFoundMsg 42 "2024-01-01" "2024-01-15")) := by
  refine ⟨rfl, by decide, ?_⟩
  have hq : queryMatches [endDayRow] 42 "2024-01-01" "2024-01-15" = [] := by decide
  rw [get_summary_eval, hq]
  rfl

/-- C2 amended: the aggregation query counts exactly the stored records
whose `user_id` matches and whose timestamp satisfies
`start_date ≤ timestamp ≤ end_date` under string-lexicographic comparison;
when no record matches it fails with NotFound.  A stored timestamp that
extends the `end_date` day with a time-of-day component compares strictly
greater than `end_date` and is therefore excluded from the aggregates. -/
theorem summary_counts_lexicographic (db : List Row) (u : Int) (sd ed : String) :
    ((queryMatches db u sd ed).length = 0 →
      (get_summary false db u sd ed).result
        = .error (.valueError (notFoundMsg u sd ed))) ∧
    (∀ s, (get_summary false db u sd ed).result = .ok s →
      s.transaction_count
        = db.countP fun r => r.user_id == u && strLe sd r.timestamp && strLe r.timestamp ed) ∧
    (∀ r ∈ db, charsLt ed.data r.timestamp.data = true → matchesQuery u sd ed r = false) := by
  refine ⟨?_, ?_, ?_⟩
  · intro h
    rw [get_summary_eval, if_pos h]
  · intro s hs
    by_cases h : (queryMatches db u sd ed).length = 0
    · rw [get_summary_eval, if_pos h] at hs
      exact absurd hs (by simp)
    · rw [get_summary_eval, if_neg h] at hs
      injection hs with hs
      subst hs
      rw [List.countP_eq_length_filter]
      rfl
  · intro r _ hlt
    simp [matchesQuery, strLe, hlt]

/-- Witness for C2 at a concrete store and query with no matching record
(the NotFound branch of the amended claim). -/
theorem summary_counts_lexicographic_witness :
    ((queryMatches [endDayRow] 7 "2024-01-01" "2024-12-31").length = 0) ∧
    (get_summary false [endDayRow] 7 "2024-01-01" "2024-12-31").result
      = .error (.valueError (notFoundMsg 7 "2024-01-01" "2024-12-31")) :=
  ⟨by decide,
    (summary_counts_lexicographic [endDayRow] 7 "2024-01-01" "2024-12-31").1 (by decide)⟩

/-- C7 amended: whenever the query succeeds, the unrounded arithmetic mean
of the matched amounts lies between `min_amount` and `max_amount`, and the
reported `mean_amount` is that mean rounded to two decimal places, hence
within `1/200` of it.  (The reported rounded mean itself can fall outside
`[min_amount, max_amount]`; see the counterexample.) -/
theorem summary_mean_bounds (db : List Row) (u : Int) (sd ed : String)
    (s : SummaryResponse)
    (hs : (get_summary false db u sd ed).result = .ok s) :
    s.min_amount ≤ sqlAvg ((queryMatches db u sd ed).map fun r => r.transaction_amount) ∧
    sqlAvg ((queryMatches db u sd ed).map fun r => r.transaction_amount) ≤ s.max_amount ∧
    s.mean_amount
      = round2 (sqlAvg ((queryMatches db u sd ed).map fun r => r.transaction_amount)) ∧
    |s.mean_amount - sqlAvg ((queryMatches db u sd ed).map fun r => r.transaction_amount)|
      ≤ 1 / 200 := by
  by_cases h : (queryMatches db u sd ed).length = 0
  · rw [get_summary_eval, if_pos h] at hs
    exact absurd hs (by simp)
  · rw [get_summary_eval, if_neg h] at hs
    injection hs with hs
    subst hs
    have hne : (queryMatches db u sd ed).map (fun r => r.transaction_amount) ≠ [] := by
      intro hc
      apply h
      have := congrArg List.length hc
      simpa using this
    exact ⟨sqlMin_le_sqlAvg _ hne, sqlAvg_le_sqlMax _ hne, rfl, round2_close _⟩

/-- Evaluation of the sample one-row summary used by the C7 witness. -/
theorem summary_sample_eval :
    (get_summary false [sampleRowA] 42 "2024-01-01" "2024-12-31").result
      = .ok { user_id := 42, transaction_count := 1, max_amount := (2 : ℚ),
              min_amount := (2 : ℚ), mean_amount := (2 : ℚ),
              start_date := "2024-01-01", end_date := "2024-12-31" } := by
  have hq : queryMatches [sampleRowA] 42 "2024-01-01" "2024-12-31" = [sampleRowA] := by decide
  rw [get_summary_eval, hq]
  norm_num [sampleRowA, sqlMax, sqlMin, sqlAvg, round2, round_eq]

/-- Witness for C7 at a concrete one-row store whose summary succeeds. -/
theorem summary_mean_bounds_witness :
    ((get_summary false [sampleRowA] 42 "2024-01-01" "2024-12-31").result
        = .ok { user_id := 42, transaction_count := 1, max_amount := (2 : ℚ),
                min_amount := (2 : ℚ), mean_amount := (2 : ℚ),
                start_date := "2024-01-01", end_date := "2024-12-31" }) ∧
    ((2 : ℚ) ≤ sqlAvg ((queryMatches [sampleRowA] 42 "2024-01-01" "2024-12-31").map
        fun r => r.transaction_amount) ∧
      sqlAvg ((queryMatches [sampleRowA] 42 "2024-01-01" "2024-12-31").map
        fun r => r.transaction_amount) ≤ (2 : ℚ) ∧
      (2 : ℚ) = round2 (sqlAvg ((queryMatches [sampleRowA] 42 "2024-01-01" "2024-12-31").map
        fun r => r.transaction_amount)) ∧
      |(2 : ℚ) - sqlAvg ((queryMatches [sampleRowA] 42 "2024-01-01" "2024-12-31").map
        fun r => r.transaction_amount)| ≤ 1 / 200) :=
  ⟨summary_sample_eval,
    summary_mean_bounds [sampleRowA] 42 "2024-01-01" "2024-12-31" _ summary_sample_eval⟩

/-- A stored record whose amount `1/250` is positive but rounds to zero
at two decimal places. -/
def tinyRow : Row := ⟨"R001", 42, 100, "2024-06-01 10:00:00", mkRat 1 250⟩

/-- C7 counterexample: for a store holding one transaction of amount
`1/250 = 0.004`, the query succeeds and reports
`mean_amount = round(0.004, 2) = 0.0 < 0.004 = min_amount`, refuting
`min_amount ≤ mean_amount` as stated for the reported rounded mean. -/
theorem summary_rounded_mean_below_min :
    ∃ s, (get_summary false [tinyRow] 42 "2024-01-01" "2024-12-31").result = .ok s ∧
      s.mean_amount < s.min_amount := by
  have hq : queryMatches [tinyRow] 42 "2024-01-01" "2024-12-31" = [tinyRow] := by decide
  refine ⟨_, by rw [get_summary_eval, hq]; rfl, ?_⟩
  show round2 (sqlAvg ([tinyRow].map fun r => r.transaction_amount))
      < sqlMin ([tinyRow].map fun r => r.transaction_amount)
  norm_num [tinyRow, sqlMin, sqlAvg, round2, round_eq, Rat.mkRat_eq_div]

/-- C8 amended: inside `upload_csv`'s `try`/`finally` the connection is
closed on every exit path — success, validation failure, and unexpected
error during parsing, validation or insertion alike; but the connection is
opened and the initial row-count query runs BEFORE the `try`
(`storage.py` lines 45-50), and a backend error there propagates as a
non-`ValueError` with the connection never closed and nothing written.
`get_summary` closes the connection on its success and NotFound paths, but
has no `try`/`finally`, so a backend error during query execution likewise
propagates with the connection still open (see the counterexample). -/
theorem connections_closed_normal_paths :
    (∀ (bf : Bool) (file : CSVStream) (db : List Row),
      (upload_csv false bf file db).connClosed = true) ∧
    (∀ (bf : Bool) (file : CSVStream) (db : List Row),
      (upload_csv true bf file db).connClosed = false ∧
      (upload_csv true bf file db).result = .error (.otherExc "database error") ∧
      (upload_csv true bf file db).table = db) ∧
    (∀ (db : List Row) (u : Int) (sd ed : String),
      (get_summary false db u sd ed).connClosed = true) := by
  refine ⟨?_, ?_, ?_⟩
  · intro bf file db
    cases file with
    | empty => rfl
    | malformed => rfl
    | content header rows =>
      cases hpc : processChunks bf header true db (chunksOf CHUNK_SIZE rows) with
      | error e => simp [upload_csv_count_ok, upload_csv_body, read_csv, hpc]
      | ok w => simp [upload_csv_count_ok, upload_csv_body, read_csv, hpc]
  · intro bf file db
    exact ⟨rfl, rfl, rfl⟩
  · intro db u sd ed
    by_cases h : (queryMatches db u sd ed).length = 0
    · rw [get_summary_eval, if_pos h]
    · rw [get_summary_eval, if_neg h]

/-- C8 counterexample: when the backend raises during the summary query,
the exception propagates as a non-`ValueError` and the connection opened
at call start is never closed, refuting the claim that the connection is
closed on every exit path of every operation. -/
theorem summary_backend_error_connection_open :
    (get_summary true [] 1 "2024-01-01" "2024-12-31").connClosed = false ∧
    (get_summary true [] 1 "2024-01-01" "2024-12-31").result
      = .error (.otherExc "database error") :=
  ⟨rfl, rfl⟩

/-- C9: the reset operation deletes every stored record and reports the
number of rows removed; resetting the already-empty store succeeds
reporting zero; and immediately after a reset every summary query, for
every user and date range, fails with the NotFound `ValueError`. -/
theorem clear_deletes_all_idempotent_notfound (db : List Row) (u : Int) (sd ed : String) :
    (clear db).2 = [] ∧
    (clear db).1.success = true ∧
    (clear db).1.message = toString db.length ++ " Transactions deleted" ∧
    (clear (clear db).2).1.success = true ∧
    (clear (clear db).2).1.message = "0 Transactions deleted" ∧
    (get_summary false (clear db).2 u sd ed).result
      = .error (.valueError (notFoundMsg u sd ed)) :=
  ⟨rfl, rfl, rfl, rfl,
    (by decide : (clear ([] : List Row)).1.message = "0 Transactions deleted"), rfl⟩

end TransactionAPI
